import Mathlib

/-!
Verification of the `skull` agent's tool-orchestration pipeline
(`internal/agent/service.go`, the alternate agent in `src/unnamed/part_001`,
and the CLI driver in `cmd/agent-cli/main.go`).

Strings are modelled as `List Char` (Go strings restricted to the ASCII
subset exercised by the pipeline).  JSON numbers are modelled as exact
rationals: the claims only compare fixed decimal constants (0.1 versus 0),
never floating-point arithmetic.  Fallible Go functions return `Option`,
and external collaborators (the LLM, the MCP transport) are passed in as
function-valued oracles.
-/

set_option maxRecDepth 8000

namespace Skull

/-! ### Character classes and Go `strings` helpers -/

/-- Whitespace recognised by `encoding/json` between tokens. -/
def isJsonWs (c : Char) : Bool :=
  c = ' ' || c = '\t' || c = '\n' || c = '\x0d'

/-- ASCII whitespace trimmed by Go's `strings.TrimSpace`. -/
def isSpaceCh (c : Char) : Bool :=
  c = ' ' || c = '\t' || c = '\n' || c = '\x0d' || c = '\x0b' || c = '\x0c'

/-- Go `strings.TrimSpace` (ASCII fragment): drop whitespace at both ends. -/
def trimSpaceGo (s : List Char) : List Char :=
  ((s.dropWhile isSpaceCh).reverse.dropWhile isSpaceCh).reverse

/-- Boolean list-prefix test (used to model Go `strings.HasPrefix`). -/
def isPre : List Char → List Char → Bool
  | [], _ => true
  | _ :: _, [] => false
  | a :: p, b :: s => a = b && isPre p s

/-- Boolean list-suffix test (Go `strings.HasSuffix`). -/
def isSuf (p s : List Char) : Bool :=
  isPre p.reverse s.reverse

/-- Go `strings.TrimPrefix`: drop `p` from the front of `s` when present. -/
def goTrimHead (p s : List Char) : List Char :=
  if isPre p s then s.drop p.length else s

/-- Go `strings.TrimSuffix`: drop `p` from the end of `s` when present. -/
def goTrimTail (p s : List Char) : List Char :=
  if isSuf p s then s.take (s.length - p.length) else s

/-! ### JSON values

Dynamic values decoded by `encoding/json` into `interface{}`:
strings, numbers (Go `float64`, here exact rationals), booleans,
arrays, objects (field lists in document order) and null. -/

inductive JValue where
  | null
  | bool (b : Bool)
  | num (q : ℚ)
  | str (s : List Char)
  | arr (elems : List JValue)
  | obj (fields : List (List Char × JValue))

/-! ### JSON parsing (`encoding/json` grammar, fuel-based recursion for termination)

The fuel argument only bounds recursion depth; `2 * length + 8` fuel is
always sufficient because every two fuel decrements consume at least one
input character.  One modelling simplification: `\u` escapes decode the
four hex digits directly to a char (no surrogate-pair combining), and
leading zeros in numbers are tolerated; no claim exercises either corner. -/

def skipWs : List Char → List Char
  | [] => []
  | c :: rest => if isJsonWs c then skipWs rest else c :: rest

def hexVal (c : Char) : Option Nat :=
  if '0' ≤ c ∧ c ≤ '9' then some (c.toNat - '0'.toNat)
  else if 'a' ≤ c ∧ c ≤ 'f' then some (c.toNat - 'a'.toNat + 10)
  else if 'A' ≤ c ∧ c ≤ 'F' then some (c.toNat - 'A'.toNat + 10)
  else none

/-- Parse the body of a JSON string (after the opening quote), returning
the decoded characters and the remaining input after the closing quote. -/
def parseStrBody : Nat → List Char → Option (List Char × List Char)
  | 0, _ => none
  | _ + 1, [] => none
  | _ + 1, '"' :: rest => some ([], rest)
  | fuel + 1, '\\' :: rest =>
    match rest with
    | [] => none
    | e :: rest2 =>
      if e = '"' ∨ e = '\\' ∨ e = '/' then
        (parseStrBody fuel rest2).map (fun p => (e :: p.1, p.2))
      else if e = 'b' then
        (parseStrBody fuel rest2).map (fun p => ('\x08' :: p.1, p.2))
      else if e = 'f' then
        (parseStrBody fuel rest2).map (fun p => ('\x0c' :: p.1, p.2))
      else if e = 'n' then
        (parseStrBody fuel rest2).map (fun p => ('\n' :: p.1, p.2))
      else if e = 'r' then
        (parseStrBody fuel rest2).map (fun p => ('\x0d' :: p.1, p.2))
      else if e = 't' then
        (parseStrBody fuel rest2).map (fun p => ('\t' :: p.1, p.2))
      else if e = 'u' then
        match rest2 with
        | h1 :: h2 :: h3 :: h4 :: rest3 =>
          match hexVal h1, hexVal h2, hexVal h3, hexVal h4 with
          | some a, some b, some c, some d =>
            (parseStrBody fuel rest3).map
              (fun p => (Char.ofNat (((a * 16 + b) * 16 + c) * 16 + d) :: p.1, p.2))
          | _, _, _, _ => none
        | _ => none
      else none
  | fuel + 1, c :: rest =>
    if c.toNat < 32 then none
    else (parseStrBody fuel rest).map (fun p => (c :: p.1, p.2))

def digVal (c : Char) : Option Nat :=
  if '0' ≤ c ∧ c ≤ '9' then some (c.toNat - '0'.toNat) else none

/-- Split a maximal run of decimal digits off the front of the input. -/
def takeDigits : List Char → List Nat × List Char
  | [] => ([], [])
  | c :: rest =>
    match digVal c with
    | none => ([], c :: rest)
    | some d =>
      let p := takeDigits rest
      (d :: p.1, p.2)

def natOfDigits (ds : List Nat) : Nat :=
  ds.foldl (fun a d => a * 10 + d) 0

/-- Parse the optional fractional part `.digits` of a JSON number. -/
def parseFrac : List Char → Option (ℚ × List Char)
  | '.' :: r =>
    let p := takeDigits r
    if p.1 = [] then none
    else some ((natOfDigits p.1 : ℚ) / ((10 : ℚ) ^ p.1.length), p.2)
  | s => some (0, s)

/-- Parse the optional exponent part `[eE][+-]?digits` of a JSON number. -/
def parseExp : List Char → Option (ℤ × List Char)
  | [] => some (0, [])
  | c :: r =>
    if c = 'e' ∨ c = 'E' then
      let sr : Bool × List Char :=
        match r with
        | '+' :: rr => (false, rr)
        | '-' :: rr => (true, rr)
        | _ => (false, r)
      let p := takeDigits sr.2
      if p.1 = [] then none
      else some ((if sr.1 then -(natOfDigits p.1 : ℤ) else (natOfDigits p.1 : ℤ)), p.2)
    else some (0, c :: r)

/-- Parse a JSON number starting at the head of the input. -/
def parseNum (s : List Char) : Option (ℚ × List Char) :=
  let ns : Bool × List Char :=
    match s with
    | '-' :: r => (true, r)
    | _ => (false, s)
  let ip := takeDigits ns.2
  if ip.1 = [] then none
  else
    match parseFrac ip.2 with
    | none => none
    | some (fq, s3) =>
      match parseExp s3 with
      | none => none
      | some (ex, s4) =>
        let base : ℚ := (natOfDigits ip.1 : ℚ) + fq
        some ((if ns.1 then -base else base) * (10 : ℚ) ^ ex, s4)

mutual

/-- Parse one JSON value (fuel-bounded). -/
def parseValue : Nat → List Char → Option (JValue × List Char)
  | 0, _ => none
  | fuel + 1, s =>
    match skipWs s with
    | [] => none
    | c :: rest =>
      if c = '"' then
        (parseStrBody fuel rest).map (fun p => (JValue.str p.1, p.2))
      else if c = 't' then
        match rest with
        | 'r' :: 'u' :: 'e' :: r => some (JValue.bool true, r)
        | _ => none
      else if c = 'f' then
        match rest with
        | 'a' :: 'l' :: 's' :: 'e' :: r => some (JValue.bool false, r)
        | _ => none
      else if c = 'n' then
        match rest with
        | 'u' :: 'l' :: 'l' :: r => some (JValue.null, r)
        | _ => none
      else if c = '[' then
        match skipWs rest with
        | ']' :: r => some (JValue.arr [], r)
        | s1 => (parseArr fuel s1).map (fun p => (JValue.arr p.1, p.2))
      else if c = '\x7b' then
        match skipWs rest with
        | '\x7d' :: r => some (JValue.obj [], r)
        | s1 => (parseObj fuel s1).map (fun p => (JValue.obj p.1, p.2))
      else if c = '-' ∨ ('0' ≤ c ∧ c ≤ '9') then
        (parseNum (c :: rest)).map (fun p => (JValue.num p.1, p.2))
      else none

/-- Parse the elements of a non-empty JSON array (after the opening
bracket), including the closing bracket. -/
def parseArr : Nat → List Char → Option (List JValue × List Char)
  | 0, _ => none
  | fuel + 1, s =>
    match parseValue fuel s with
    | none => none
    | some (v, r) =>
      match skipWs r with
      | ',' :: r2 => (parseArr fuel r2).map (fun p => (v :: p.1, p.2))
      | ']' :: r2 => some ([v], r2)
      | _ => none

/-- Parse the fields of a non-empty JSON object (after the opening
brace), including the closing brace. -/
def parseObj : Nat → List Char → Option (List (List Char × JValue) × List Char)
  | 0, _ => none
  | fuel + 1, s =>
    match skipWs s with
    | '"' :: r =>
      match parseStrBody fuel r with
      | none => none
      | some (k, r1) =>
        match skipWs r1 with
        | ':' :: r2 =>
          match parseValue fuel r2 with
          | none => none
          | some (v, r3) =>
            match skipWs r3 with
            | ',' :: r4 => (parseObj fuel r4).map (fun p => ((k, v) :: p.1, p.2))
            | '\x7d' :: r4 => some ([(k, v)], r4)
            | _ => none
        | _ => none
    | _ => none

end

/-- Parse a complete JSON document: one value followed only by
whitespace, as `json.Unmarshal` requires. -/
def unmarshalJSON (s : List Char) : Option JValue :=
  match parseValue (2 * s.length + 8) s with
  | none => none
  | some (v, rest) => if skipWs rest = [] then some v else none

/-! ### The agent's decision structures (`internal/agent/service.go`)

`ToolCall` and `Response` mirror the Go structs of the same names.
`map[string]interface{}` arguments become association lists in document
order (later duplicate keys overwrite earlier ones during decoding, as
in Go). -/

structure ToolCall where
  name : List Char
  arguments : List (List Char × JValue)
  reasoning : List Char

structure Response where
  message : List Char
  toolCalls : List ToolCall
  shouldCall : Bool
  confidence : ℚ
  explanation : List Char
  postProcess : List Char

/-- The zero value a freshly declared `Response` has before decoding. -/
def zeroResponse : Response :=
  { message := [], toolCalls := [], shouldCall := false, confidence := 0,
    explanation := [], postProcess := [] }

/-- The zero value of a `ToolCall` (Go nil map for the arguments). -/
def zeroToolCall : ToolCall :=
  { name := [], arguments := [], reasoning := [] }

/-! ### `json.Unmarshal` into the structs

Go's decoder assigns object fields in document order (later duplicates
win), ignores unknown keys, treats `null` for a field as a no-op, and
fails on a kind mismatch between the JSON value and the field's Go
type.  A field absent from the object simply keeps its zero value —
`json.Unmarshal` never reports missing fields. -/

def setToolCallField (tc : ToolCall) (k : List Char) (v : JValue) : Option ToolCall :=
  if k = "name".data then
    match v with
    | .str s => some { tc with name := s }
    | .null => some tc
    | _ => none
  else if k = "arguments".data then
    match v with
    | .obj fs => some { tc with arguments := fs }
    | .null => some tc
    | _ => none
  else if k = "reasoning".data then
    match v with
    | .str s => some { tc with reasoning := s }
    | .null => some tc
    | _ => none
  else some tc

def decodeToolCall (v : JValue) : Option ToolCall :=
  match v with
  | .obj fs => fs.foldlM (fun tc f => setToolCallField tc f.1 f.2) zeroToolCall
  | .null => some zeroToolCall
  | _ => none

def setRespField (r : Response) (k : List Char) (v : JValue) : Option Response :=
  if k = "message".data then
    match v with
    | .str s => some { r with message := s }
    | .null => some r
    | _ => none
  else if k = "tool_calls".data then
    match v with
    | .arr xs => (xs.mapM decodeToolCall).map (fun tcs => { r with toolCalls := tcs })
    | .null => some r
    | _ => none
  else if k = "should_call".data then
    match v with
    | .bool b => some { r with shouldCall := b }
    | .null => some r
    | _ => none
  else if k = "confidence".data then
    match v with
    | .num q => some { r with confidence := q }
    | .null => some r
    | _ => none
  else if k = "explanation".data then
    match v with
    | .str s => some { r with explanation := s }
    | .null => some r
    | _ => none
  else if k = "post_process".data then
    match v with
    | .str s => some { r with postProcess := s }
    | .null => some r
    | _ => none
  else some r

def decodeResponse (v : JValue) : Option Response :=
  match v with
  | .obj fs => fs.foldlM (fun r f => setRespField r f.1 f.2) zeroResponse
  | .null => some zeroResponse
  | _ => none

/-- `json.Unmarshal([]byte(content), &response)`: `none` models a
returned error, `some` the successfully filled struct. -/
def unmarshalResponse (s : List Char) : Option Response :=
  match unmarshalJSON s with
  | none => none
  | some v => decodeResponse v

/-- The fixed fallback `Response` built by `ProcessInput` when JSON
parsing of the model reply fails (service.go lines 250-255). -/
def fallbackResponse : Response :=
  { message := ("I understand your request, but I had trouble determining " ++
      "the best approach. Could you please rephrase your request?").data,
    toolCalls := [], shouldCall := false, confidence := 1 / 10,
    explanation := "Failed to parse agent decision".data, postProcess := [] }

/-- The decision-parsing step of `ProcessInput` (service.go lines
242-256): trim the reply, attempt `json.Unmarshal`, and degrade to the
fixed fallback on failure.  The function is total: the Go code returns
a nil error on both paths. -/
def processInputParse (content : List Char) : Response :=
  match unmarshalResponse (trimSpaceGo content) with
  | none => fallbackResponse
  | some r => r

/-- The markdown-fence cleanup applied by `analyzeQuery` in
`src/unnamed/part_001` (lines 168-175) to the already-trimmed reply:
TrimPrefix triple-backtick-json, TrimPrefix triple-backtick, TrimSuffix
triple-backtick, TrimSpace. -/
def cleanFences (content : List Char) : List Char :=
  let c1 := goTrimHead ['`', '`', '`', 'j', 's', 'o', 'n'] content
  let c2 := goTrimHead ['`', '`', '`'] c1
  let c3 := goTrimTail ['`', '`', '`'] c2
  trimSpaceGo c3

/-- The full reply cleanup in `analyzeQuery`: the reply is trimmed on
receipt (line 168) before the fences are stripped. -/
def analyzeClean (reply : List Char) : List Char :=
  cleanFences (trimSpaceGo reply)

/-! ### Tool definitions and the argument validator
(service.go `ValidateToolCall` / `validateParameterType`)

A tool's `*jsonschema.Schema` is modelled by its two consulted parts:
the property map (name to declared type string) and the required list.
Go's formatted errors become tagged values carrying the same data. -/

structure PropSchema where
  typ : List Char
deriving DecidableEq

structure ParamSchema where
  properties : List (List Char × PropSchema)
  required : List (List Char)
deriving DecidableEq

structure ToolDefinition where
  name : List Char
  description : List Char
  parameters : ParamSchema
deriving DecidableEq

inductive ValidationError where
  | unknownTool (name : List Char)
  | missingParam (param tool : List Char)
  | typeMismatch (param expected : List Char)
deriving DecidableEq

/-- Association-list lookup (Go map indexing; keys are unique in a Go
map, so first match suffices). -/
def lookupA {α : Type} : List (List Char × α) → List Char → Option α
  | [], _ => none
  | (k', v) :: rest, k => if k' = k then some v else lookupA rest k

/-- The linear scan over `a.tools` at the top of `ValidateToolCall`. -/
def findTool : List ToolDefinition → List Char → Option ToolDefinition
  | [], _ => none
  | t :: ts, n => if t.name = n then some t else findTool ts n

/-- `validateParameterType` (service.go lines 350-370): the Go type
switch on the declared kind.  JSON numbers decode to `float64`, so the
`integer` and `number` cases both accept exactly `JValue.num`; declared
kinds outside the four primitives are not checked. -/
def validateParameterType (paramName : List Char) (value : JValue)
    (expectedType : List Char) : Option ValidationError :=
  if expectedType = "string".data then
    match value with
    | .str _ => none
    | _ => some (.typeMismatch paramName expectedType)
  else if expectedType = "integer".data then
    match value with
    | .num _ => none
    | _ => some (.typeMismatch paramName expectedType)
  else if expectedType = "number".data then
    match value with
    | .num _ => none
    | _ => some (.typeMismatch paramName expectedType)
  else if expectedType = "boolean".data then
    match value with
    | .bool _ => none
    | _ => some (.typeMismatch paramName expectedType)
  else none

/-- The required-parameter loop of `ValidateToolCall`: report the first
required property that is absent from the argument map. -/
def firstMissing (required : List (List Char))
    (args : List (List Char × JValue)) : Option (List Char) :=
  match required with
  | [] => none
  | r :: rs => if (lookupA args r).isNone then some r else firstMissing rs args

/-- The type-check loop of `ValidateToolCall`: for each supplied
argument that names a schema property, check its declared kind.  Go
iterates the argument map in unspecified order; the embedding fixes
document order, which only affects which of several mismatches is
reported, not whether one is. -/
def typeCheckArgs (props : List (List Char × PropSchema)) :
    List (List Char × JValue) → Option ValidationError
  | [] => none
  | (k, v) :: rest =>
    match lookupA props k with
    | none => typeCheckArgs props rest
    | some sch =>
      match validateParameterType k v sch.typ with
      | some e => some e
      | none => typeCheckArgs props rest

/-- `ValidateToolCall` (service.go lines 313-347). -/
def validateToolCall (tools : List ToolDefinition) (call : ToolCall) :
    Option ValidationError :=
  match findTool tools call.name with
  | none => some (.unknownTool call.name)
  | some toolDef =>
    match firstMissing toolDef.parameters.required call.arguments with
    | some r => some (.missingParam r call.name)
    | none => typeCheckArgs toolDef.parameters.properties call.arguments

/-! ### The tool dispatcher and result aggregator
(`src/unnamed/part_001`: `executeTools`, `buildResultsContext`)

`mcp.CallToolResult` is reduced to the two parts the aggregator reads:
the error flag and the ordered content parts.  The MCP client is an
oracle; `none` models a transport-level error from `CallTool`. -/

structure CallToolParams where
  name : List Char
  arguments : List (List Char × JValue)

inductive MCPContentPart where
  | text (s : List Char)
  | other
deriving DecidableEq

structure CallToolResult where
  isError : Bool
  content : List MCPContentPart
deriving DecidableEq

/-- `executeTools` (part_001 lines 213-246): sequential dispatch in
proposal order; a transport-level failure is logged and the loop
`continue`s without appending any result for that call. -/
def executeTools (callTool : CallToolParams → Option CallToolResult) :
    List CallToolParams → List CallToolResult
  | [] => []
  | c :: rest =>
    match callTool c with
    | none => executeTools callTool rest
    | some r => r :: executeTools callTool rest

/-- The per-result text chosen by `buildResultsContext`: the first
`TextContent` part, skipping other content kinds. -/
def extractText : List MCPContentPart → List Char
  | [] => []
  | .text s :: _ => s
  | .other :: rest => extractText rest

/-- One result's text block in `buildResultsContext` (part_001 lines
398-414). -/
def resultTextOf (r : CallToolResult) : List Char :=
  if r.isError then "Tool execution failed".data
  else
    let t := extractText r.content
    if t = [] then "Tool executed successfully but no text content available".data
    else t

/-- `buildResultsContext` (part_001 lines 391-420): one numbered block
per result — failed ones included — joined by a blank line. -/
def buildResultsContext (results : List CallToolResult) : List Char :=
  if results = [] then "No tool results available.".data
  else
    List.intercalate "\n\n".data
      (results.enum.map (fun p =>
        "Tool ".data ++ (Nat.repr (p.1 + 1)).data ++ " result:\n".data ++
          resultTextOf p.2))

/-! ### The post-processor (service.go `PostProcess`, `minNonZero`)

The LLM is an oracle from a chat request to an outcome; `postProcess`
additionally returns the list of chat-completion requests it issued, so
call counts are observable. -/

/-- `minNonZero` (service.go lines 181-190). -/
def minNonZero (a b : ℤ) : ℤ :=
  if a = 0 then b else if a < b then a else b

structure ChatRequest where
  system : List Char
  user : List Char
  maxTokens : ℤ
deriving DecidableEq

inductive LLMOutcome where
  | reply (text : List Char)
  | failed

inductive PPResult where
  | ok (text : List Char)
  | err
deriving DecidableEq

def postSystemPrompt : List Char :=
  ("You are an expert post-processing assistant. You perform a single action " ++
   "described by an imperative verb (e.g., Summarize, Recommend, Exclude, " ++
   "Transform) on the given content. Return only the final result with no " ++
   "preamble. Keep it faithful, concise, and helpful.").data

def postUserPrompt (instr userRequest content : List Char) : List Char :=
  "Instruction: ".data ++ instr ++ "\n\nUser Request: ".data ++ userRequest ++
    "\n\nContent to process:\n".data ++ content

/-- `PostProcess` (service.go lines 150-179): trim the instruction; if
it or the content is empty, return the content unchanged with no LLM
call; otherwise issue exactly one chat completion whose max-tokens is
`minNonZero(config.MaxTokens, 700)`, trimming the reply on success. -/
def postProcess (llm : ChatRequest → LLMOutcome) (maxTokensCfg : ℤ)
    (instruction userRequest content : List Char) : PPResult × List ChatRequest :=
  let instr := trimSpaceGo instruction
  if instr = [] ∨ content = [] then (.ok content, [])
  else
    let req : ChatRequest :=
      { system := postSystemPrompt, user := postUserPrompt instr userRequest content,
        maxTokens := minNonZero maxTokensCfg 700 }
    match llm req with
    | .failed => (.err, [req])
    | .reply t => (.ok (trimSpaceGo t), [req])

/-! ### Agent construction and the MCP session lifecycle
(service.go `NewAgent`, `fetchToolsFromMCP`, `ensureMCPSession`,
`CallToolRemote`)

Sessions are identified by a `Nat`.  The transport is an oracle:
`connect` maps the attempt number to the session obtained (or `none`
when unreachable), so reuse versus re-creation is observable. -/

inductive AgentErr where
  | notConfigured
  | connectFailed
  | listToolsFailed
  | callToolFailed
deriving DecidableEq

inductive MCPResult (α : Type) where
  | ok (val : α)
  | err (e : AgentErr)
deriving DecidableEq

structure AgentState where
  tools : List ToolDefinition
  mcpConfigured : Bool
  mcpSession : Option Nat
  connectAttempts : Nat
deriving DecidableEq

/-- `ensureMCPSession` (service.go lines 121-136): reuse the cached
session when present; otherwise require configuration and connect,
caching the new session on success. -/
def ensureMCPSession (connect : Nat → Option Nat) (st : AgentState) :
    MCPResult Nat × AgentState :=
  match st.mcpSession with
  | some s => (.ok s, st)
  | none =>
    if st.mcpConfigured then
      match connect st.connectAttempts with
      | none => (.err .connectFailed, { st with connectAttempts := st.connectAttempts + 1 })
      | some s =>
        (.ok s, { st with mcpSession := some s, connectAttempts := st.connectAttempts + 1 })
    else (.err .notConfigured, st)

/-- `fetchToolsFromMCP` (service.go lines 98-119): obtain the shared
session, list tools, and replace the registry snapshot wholesale.  The
`ok` value records which session was used. -/
def fetchToolsFromMCP (connect : Nat → Option Nat)
    (listTools : Nat → Option (List ToolDefinition)) (st : AgentState) :
    MCPResult (Nat × List ToolDefinition) × AgentState :=
  match ensureMCPSession connect st with
  | (.err e, st') => (.err e, st')
  | (.ok s, st') =>
    match listTools s with
    | none => (.err .listToolsFailed, st')
    | some ts => (.ok (s, ts), { st' with tools := ts })

/-- `CallToolRemote` (service.go lines 138-146): obtain the shared
session and invoke the tool on it.  The `ok` value records which
session was used. -/
def callToolRemote (connect : Nat → Option Nat)
    (callTool : Nat → CallToolParams → Option CallToolResult)
    (st : AgentState) (p : CallToolParams) :
    MCPResult (Nat × CallToolResult) × AgentState :=
  match ensureMCPSession connect st with
  | (.err e, st') => (.err e, st')
  | (.ok s, st') =>
    match callTool s p with
    | none => (.err .callToolFailed, st')
    | some r => (.ok (s, r), st')

/-- `NewAgent` (service.go lines 62-92): construction is total — the Go
function has no error return.  With an MCP server configured it tries
one tool fetch; on failure it logs a warning and keeps an empty
registry. -/
def newAgent (mcpConfigured : Bool) (connect : Nat → Option Nat)
    (listTools : Nat → Option (List ToolDefinition)) : AgentState :=
  let st0 : AgentState :=
    { tools := [], mcpConfigured := mcpConfigured, mcpSession := none,
      connectAttempts := 0 }
  if mcpConfigured then
    match fetchToolsFromMCP connect listTools st0 with
    | (.err _, st') => { st' with tools := [] }
    | (.ok _, st') => st'
  else st0

/-! ## Theorems for the claims -/

/-- C2 (counterexample): aggregating success "A", a failure, success
"B" does not yield the bare "A\n\nB" — `buildResultsContext` prefixes
every block with a "Tool i result:" header and renders the failed call
as its own block. -/
theorem c2_counterexample :
    buildResultsContext
      [{ isError := false, content := [.text ['A']] },
       { isError := true, content := [] },
       { isError := false, content := [.text ['B']] }] ≠
      ['A', '\n', '\n', 'B'] := by
  decide

/-- C2 (amended): the aggregator emits, in call order, one block per
result — failed calls included, rendered as "Tool execution failed" —
each headed "Tool i result:" and joined by one blank line; on the
[success "A", failure, success "B"] input this is the exact output. -/
theorem c2_aggregate_format :
    buildResultsContext
      [{ isError := false, content := [.text ['A']] },
       { isError := true, content := [] },
       { isError := false, content := [.text ['B']] }] =
      ("Tool 1 result:\nA\n\nTool 2 result:\nTool execution failed\n\n" ++
        "Tool 3 result:\nB").data := by
  decide

/-- C4 (counterexample): with three proposed calls whose second fails
at the transport, `executeTools` returns only two results — both
success-marked — so the failed call produces no failed
`ToolExecutionResult` at all, contrary to the claim. -/
theorem c4_counterexample :
    executeTools
      (fun c => if c.name = ['t', '2'] then none
                else some { isError := false, content := [.text c.name] })
      [{ name := ['t', '1'], arguments := [] },
       { name := ['t', '2'], arguments := [] },
       { name := ['t', '3'], arguments := [] }] =
      [{ isError := false, content := [.text ['t', '1']] },
       { isError := false, content := [.text ['t', '3']] }] := by
  decide

/-- C4 (amended): a transport-level failure on one call is skipped —
no result of any kind is recorded for it — while the remaining calls
still execute, so with three proposed calls whose second fails at the
transport the dispatcher returns exactly the results of calls 1 and 3,
in original order. -/
theorem c4_skip_failed_call (f : CallToolParams → Option CallToolResult)
    (c1 c2 c3 : CallToolParams) (r1 r3 : CallToolResult)
    (h1 : f c1 = some r1) (h2 : f c2 = none) (h3 : f c3 = some r3) :
    executeTools f [c1, c2, c3] = [r1, r3] := by
  simp [executeTools, h1, h2, h3]

/-- C4 (witness): the amended dispatch behavior at a concrete
transport that fails exactly on the second call. -/
theorem c4_skip_failed_call_witness :
    executeTools
      (fun c => if c.name = ['u', '2'] then none
                else some { isError := false, content := [.text c.name] })
      [{ name := ['u', '1'], arguments := [] },
       { name := ['u', '2'], arguments := [] },
       { name := ['u', '3'], arguments := [] }] =
      [{ isError := false, content := [.text ['u', '1']] },
       { isError := false, content := [.text ['u', '3']] }] :=
  c4_skip_failed_call _ _ _ _ _ _ (by decide) (by decide) (by decide)

/-- C6: `PostProcess` issues exactly one additional LLM call when the
trimmed instruction and the aggregated content are both non-empty, and
zero calls — returning the content unchanged — when either is empty. -/
theorem c6_post_process_gating (llm : ChatRequest → LLMOutcome) (m : ℤ)
    (instruction userRequest content : List Char) :
    (trimSpaceGo instruction ≠ [] → content ≠ [] →
      (postProcess llm m instruction userRequest content).2.length = 1) ∧
    (trimSpaceGo instruction = [] ∨ content = [] →
      (postProcess llm m instruction userRequest content).2.length = 0 ∧
      (postProcess llm m instruction userRequest content).1 = .ok content) := by
  constructor
  · intro h1 h2
    simp only [postProcess]
    rw [if_neg (by tauto)]
    cases llm _ <;> simp
  · intro h
    simp only [postProcess]
    rw [if_pos h]
    exact ⟨rfl, rfl⟩

/-- C6 (witness): instruction "Summarize" with non-empty content
issues one call; an empty instruction issues none. -/
theorem c6_post_process_gating_witness :
    (postProcess (fun _ => LLMOutcome.reply ['o', 'k']) 0 "Summarize".data
      ['r'] ['X']).2.length = 1 ∧
    (postProcess (fun _ => LLMOutcome.reply ['o', 'k']) 0 []
      ['r'] ['X']).2.length = 0 :=
  ⟨(c6_post_process_gating _ _ _ _ _).1 (by decide) (by decide),
   ((c6_post_process_gating _ _ _ _ _).2 (Or.inl (by decide))).1⟩

/-- C8: agent construction is total, and with the transport
unreachable — whether the connect or the tool-listing step fails — the
agent is built with an empty tool registry. -/
theorem c8_agent_survives_unreachable_transport
    (connect : Nat → Option Nat) (listTools : Nat → Option (List ToolDefinition)) :
    ((∀ n, connect n = none) → (newAgent true connect listTools).tools = []) ∧
    ((∀ s, listTools s = none) → (newAgent true connect listTools).tools = []) := by
  constructor
  · intro h
    simp [newAgent, fetchToolsFromMCP, ensureMCPSession, h]
  · intro h
    simp only [newAgent, fetchToolsFromMCP, ensureMCPSession]
    cases connect 0 <;> simp [h]

/-- C8 (witness): a concrete agent built against a dead transport has
zero tools. -/
theorem c8_agent_survives_unreachable_transport_witness :
    (newAgent true (fun _ => none) (fun _ => none)).tools = [] :=
  (c8_agent_survives_unreachable_transport _ _).1 (fun _ => rfl)

/-- C10: every chat request issued by `PostProcess` carries
`minNonZero(config.MaxTokens, 700)` as its max-tokens: 700 when the
configured value is 0, `min m 700` otherwise, hence never more
than 700. -/
theorem c10_max_tokens_cap (llm : ChatRequest → LLMOutcome) (m : ℤ)
    (instruction userRequest content : List Char) (req : ChatRequest)
    (hreq : req ∈ (postProcess llm m instruction userRequest content).2) :
    req.maxTokens = minNonZero m 700 ∧
    (m = 0 → req.maxTokens = 700) ∧
    (m ≠ 0 → req.maxTokens = min m 700) ∧
    req.maxTokens ≤ 700 := by
  have hmt : req.maxTokens = minNonZero m 700 := by
    simp only [postProcess] at hreq
    by_cases hc : trimSpaceGo instruction = [] ∨ content = []
    · rw [if_pos hc] at hreq
      simp at hreq
    · rw [if_neg hc] at hreq
      split at hreq <;> simp_all
  refine ⟨hmt, ?_, ?_, ?_⟩
  · intro h0
    rw [hmt, h0, minNonZero]
    simp
  · intro h0
    rw [hmt, minNonZero, if_neg h0, min_def]
    split_ifs <;> omega
  · rw [hmt, minNonZero]
    split_ifs <;> omega

/-- C10 (witness): with MaxTokens configured to 2000, the single
issued post-process request is capped at `minNonZero 2000 700 = 700`. -/
theorem c10_max_tokens_cap_witness :
    ({ system := postSystemPrompt,
       user := postUserPrompt "Summarize".data ['r'] ['X'],
       maxTokens := 700 } : ChatRequest).maxTokens = minNonZero 2000 700 ∧
    ({ system := postSystemPrompt,
       user := postUserPrompt "Summarize".data ['r'] ['X'],
       maxTokens := 700 } : ChatRequest).maxTokens ≤ 700 := by
  have h := c10_max_tokens_cap (fun _ => LLMOutcome.reply ['o', 'k']) 2000
    "Summarize".data ['r'] ['X']
    { system := postSystemPrompt,
      user := postUserPrompt "Summarize".data ['r'] ['X'], maxTokens := 700 }
    (by decide)
  exact ⟨h.1, h.2.2.2⟩

/-- C9: the MCP session is lazily created at most once and then
reused: a cached session is returned as-is with the state untouched;
once any `ensureMCPSession` succeeds, every later `ensureMCPSession` —
under any transport behavior — returns that identical session without
touching the state; and both tool discovery (`fetchToolsFromMCP`) and
tool dispatch (`callToolRemote`) run on the cached session. -/
theorem c9_session_created_once_reused (connect : Nat → Option Nat)
    (st : AgentState) (s : Nat) :
    (st.mcpSession = some s → ensureMCPSession connect st = (.ok s, st)) ∧
    ((ensureMCPSession connect st).1 = .ok s →
      ((ensureMCPSession connect st).2.mcpSession = some s ∧
        ∀ connect2, ensureMCPSession connect2 (ensureMCPSession connect st).2 =
          (.ok s, (ensureMCPSession connect st).2))) ∧
    (st.mcpSession = some s →
      ∀ lt x st', fetchToolsFromMCP connect lt st = (.ok x, st') →
        x.1 = s ∧ st'.mcpSession = some s) ∧
    (st.mcpSession = some s →
      ∀ ct p x st', callToolRemote connect ct st p = (.ok x, st') →
        x.1 = s ∧ st'.mcpSession = some s) := by
  have hcached : ∀ (c : Nat → Option Nat) (st0 : AgentState),
      st0.mcpSession = some s → ensureMCPSession c st0 = (.ok s, st0) := by
    intro c st0 h
    simp [ensureMCPSession, h]
  refine ⟨hcached connect st, ?_, ?_, ?_⟩
  · intro h
    have hsess : (ensureMCPSession connect st).2.mcpSession = some s := by
      unfold ensureMCPSession at h ⊢
      cases hm : st.mcpSession with
      | some s' =>
        simp only [hm] at h ⊢
        simp at h ⊢
        exact h
      | none =>
        simp only [hm] at h ⊢
        by_cases hcfg : st.mcpConfigured
        · simp only [hcfg, if_true] at h ⊢
          cases hcn : connect st.connectAttempts with
          | none =>
            rw [hcn] at h
            exact absurd h (by simp)
          | some s' =>
            rw [hcn] at h
            simp at h ⊢
            exact h
        · simp only [hcfg, Bool.false_eq_true, if_false] at h
          exact absurd h (by simp)
    exact ⟨hsess, fun connect2 => hcached connect2 _ hsess⟩
  · intro h lt x st' hfetch
    have hred : fetchToolsFromMCP connect lt st =
        (match lt s with
         | none => (.err .listToolsFailed, st)
         | some ts => (.ok (s, ts), { st with tools := ts })) := by
      rw [fetchToolsFromMCP, hcached connect st h]
    rw [hred] at hfetch
    cases hl : lt s with
    | none =>
      rw [hl] at hfetch
      exact absurd hfetch (by simp)
    | some ts =>
      rw [hl] at hfetch
      simp only [Prod.mk.injEq, MCPResult.ok.injEq] at hfetch
      obtain ⟨hx, hst⟩ := hfetch
      exact ⟨by rw [← hx], by rw [← hst]; exact h⟩
  · intro h ct p x st' hcall
    have hred : callToolRemote connect ct st p =
        (match ct s p with
         | none => (.err .callToolFailed, st)
         | some r => (.ok (s, r), st)) := by
      rw [callToolRemote, hcached connect st h]
    rw [hred] at hcall
    cases hl : ct s p with
    | none =>
      rw [hl] at hcall
      exact absurd hcall (by simp)
    | some r =>
      rw [hl] at hcall
      simp only [Prod.mk.injEq, MCPResult.ok.injEq] at hcall
      obtain ⟨hx, hst⟩ := hcall
      exact ⟨by rw [← hx], by rw [← hst]; exact h⟩

/-- C9 (witness): a concrete state holding session 7 is reused
unchanged by a further `ensureMCPSession`, even against a transport
that would hand out session 9 on a fresh connect. -/
theorem c9_session_created_once_reused_witness :
    ensureMCPSession (fun _ => some 9)
      { tools := [], mcpConfigured := true, mcpSession := some 7,
        connectAttempts := 1 } =
      (.ok 7,
       { tools := [], mcpConfigured := true, mcpSession := some 7,
         connectAttempts := 1 }) :=
  (c9_session_created_once_reused (fun _ => some 9) _ 7).1 rfl

/-! ### Helper lemmas about the validator -/

theorem findTool_eq_none_iff (ts : List ToolDefinition) (n : List Char) :
    findTool ts n = none ↔ ∀ t ∈ ts, t.name ≠ n := by
  induction ts with
  | nil => simp [findTool]
  | cons t ts ih =>
    simp only [findTool]
    by_cases h : t.name = n
    · rw [if_pos h]
      exact iff_of_false (by simp)
        (fun hall => (hall t (List.mem_cons_self t ts)) h)
    · rw [if_neg h, ih]
      simp [List.forall_mem_cons, h]

theorem firstMissing_some_of_missing (required : List (List Char))
    (args : List (List Char × JValue)) (r : List Char)
    (hr : r ∈ required) (hmiss : lookupA args r = none) :
    ∃ p, firstMissing required args = some p ∧ p ∈ required ∧
      lookupA args p = none := by
  induction required with
  | nil => cases hr
  | cons q qs ih =>
    cases hq : lookupA args q with
    | none =>
      exact ⟨q, by simp [firstMissing, hq], List.mem_cons_self q qs, hq⟩
    | some v =>
      have hr' : r ∈ qs := by
        rcases List.mem_cons.mp hr with h1 | h1
        · rw [h1, hq] at hmiss
          cases hmiss
        · exact h1
      obtain ⟨p, hp1, hp2, hp3⟩ := ih hr'
      exact ⟨p, by simp [firstMissing, hq, hp1], List.mem_cons_of_mem _ hp2, hp3⟩

theorem firstMissing_eq_none (required : List (List Char))
    (args : List (List Char × JValue))
    (h : ∀ r ∈ required, (lookupA args r).isSome) :
    firstMissing required args = none := by
  induction required with
  | nil => rfl
  | cons q qs ih =>
    cases hq : lookupA args q with
    | none =>
      have := h q (List.mem_cons_self q qs)
      rw [hq] at this
      cases this
    | some v =>
      simp only [firstMissing, hq, Option.isNone_some, Bool.false_eq_true, if_false]
      exact ih (fun r hr => h r (List.mem_cons_of_mem _ hr))

theorem typeCheckArgs_eq_none (props : List (List Char × PropSchema))
    (args : List (List Char × JValue))
    (h : ∀ k v, (k, v) ∈ args → ∀ sch, lookupA props k = some sch →
      validateParameterType k v sch.typ = none) :
    typeCheckArgs props args = none := by
  induction args with
  | nil => rfl
  | cons kv rest ih =>
    obtain ⟨k, v⟩ := kv
    simp only [typeCheckArgs]
    cases hk : lookupA props k with
    | none => exact ih (fun k' v' hm sch hs => h k' v' (List.mem_cons_of_mem _ hm) sch hs)
    | some sch =>
      have hval := h k v (List.mem_cons_self _ _) sch hk
      simp only [hval]
      exact ih (fun k' v' hm sch' hs => h k' v' (List.mem_cons_of_mem _ hm) sch' hs)

theorem validateParameterType_some (k : List Char) (v : JValue)
    (t : List Char) (e : ValidationError)
    (h : validateParameterType k v t = some e) : e = .typeMismatch k t := by
  unfold validateParameterType at h
  split_ifs at h <;> cases v <;> simp_all

theorem typeCheckArgs_some_shape (props : List (List Char × PropSchema))
    (args : List (List Char × JValue)) (e : ValidationError)
    (h : typeCheckArgs props args = some e) :
    ∃ k t, e = .typeMismatch k t := by
  induction args with
  | nil => cases h
  | cons kv rest ih =>
    obtain ⟨k, v⟩ := kv
    simp only [typeCheckArgs] at h
    cases hk : lookupA props k with
    | none =>
      rw [hk] at h
      exact ih h
    | some sch =>
      rw [hk] at h
      cases hv : validateParameterType k v sch.typ with
      | none =>
        simp only [hv] at h
        exact ih h
      | some e' =>
        simp only [hv, Option.some.injEq] at h
        exact ⟨k, sch.typ, by rw [← h]; exact validateParameterType_some k v sch.typ e' hv⟩

/-- C3: the validator reports UnknownTool exactly when no registry
tool bears the call's name; when the tool is matched and some required
property is absent from the arguments it reports MissingParameter
naming a missing property and the tool; and it accepts a call carrying
all required parameters (with kind-correct in-schema values) plus
arbitrary extra keys outside the schema. -/
theorem c3_validator_characterization (tools : List ToolDefinition) (call : ToolCall) :
    (validateToolCall tools call = some (.unknownTool call.name) ↔
      ∀ t ∈ tools, t.name ≠ call.name) ∧
    (∀ td, findTool tools call.name = some td →
      ∀ r ∈ td.parameters.required, lookupA call.arguments r = none →
        ∃ p, p ∈ td.parameters.required ∧ lookupA call.arguments p = none ∧
          validateToolCall tools call = some (.missingParam p call.name)) ∧
    (∀ td, findTool tools call.name = some td →
      (∀ r ∈ td.parameters.required, (lookupA call.arguments r).isSome) →
      (∀ k v, (k, v) ∈ call.arguments → ∀ sch,
        lookupA td.parameters.properties k = some sch →
        validateParameterType k v sch.typ = none) →
      validateToolCall tools call = none) := by
  refine ⟨⟨?_, ?_⟩, ?_, ?_⟩
  · intro h
    rw [← findTool_eq_none_iff]
    cases hf : findTool tools call.name with
    | none => rfl
    | some td =>
      exfalso
      simp only [validateToolCall, hf] at h
      cases hm : firstMissing td.parameters.required call.arguments with
      | some r =>
        rw [hm] at h
        cases h
      | none =>
        rw [hm] at h
        obtain ⟨k, t, ht⟩ := typeCheckArgs_some_shape _ _ _ h
        exact ValidationError.noConfusion ht
  · intro h
    have hf : findTool tools call.name = none := (findTool_eq_none_iff _ _).mpr h
    simp [validateToolCall, hf]
  · intro td hf r hr hmiss
    obtain ⟨p, hp1, hp2, hp3⟩ :=
      firstMissing_some_of_missing td.parameters.required call.arguments r hr hmiss
    exact ⟨p, hp2, hp3, by simp [validateToolCall, hf, hp1]⟩
  · intro td hf hall htypes
    simp [validateToolCall, hf, firstMissing_eq_none _ _ hall,
      typeCheckArgs_eq_none _ _ htypes]

/-- C3 (witness): against a one-tool registry (`scrape_url` requiring
`url`), a call named `nope` is rejected as an unknown tool. -/
theorem c3_validator_characterization_witness :
    validateToolCall
      [{ name := "scrape_url".data, description := [],
         parameters :=
          { properties :=
              [("url".data, { typ := "string".data }),
               ("timeout".data, { typ := "integer".data })],
            required := ["url".data] } }]
      { name := "nope".data, arguments := [], reasoning := [] } =
      some (.unknownTool "nope".data) :=
  (c3_validator_characterization _ _).1.mpr (by decide)

theorem vpt_string_iff (k : List Char) (v : JValue) :
    validateParameterType k v "string".data = none ↔ ∃ s, v = .str s := by
  unfold validateParameterType
  rw [if_pos rfl]
  cases v <;> simp

theorem vpt_integer_iff (k : List Char) (v : JValue) :
    validateParameterType k v "integer".data = none ↔ ∃ q, v = .num q := by
  unfold validateParameterType
  rw [if_neg (by decide), if_pos rfl]
  cases v <;> simp

theorem vpt_number_iff (k : List Char) (v : JValue) :
    validateParameterType k v "number".data = none ↔ ∃ q, v = .num q := by
  unfold validateParameterType
  rw [if_neg (by decide), if_neg (by decide), if_pos rfl]
  cases v <;> simp

theorem vpt_boolean_iff (k : List Char) (v : JValue) :
    validateParameterType k v "boolean".data = none ↔ ∃ b, v = .bool b := by
  unfold validateParameterType
  rw [if_neg (by decide), if_neg (by decide), if_neg (by decide), if_pos rfl]
  cases v <;> simp

/-- C7: for declared kinds string/integer/number/boolean the validator
accepts exactly values of that primitive kind, with integer and number
sharing the single JSON-number representation; a mismatch is reported
as a TypeMismatch naming the parameter and the declared kind, and any
other declared kind is passed through unchecked. -/
theorem c7_primitive_kind_checks (k : List Char) (v : JValue) :
    (validateParameterType k v "string".data = none ↔ ∃ s, v = .str s) ∧
    (validateParameterType k v "integer".data = none ↔ ∃ q, v = .num q) ∧
    (validateParameterType k v "number".data = none ↔ ∃ q, v = .num q) ∧
    (validateParameterType k v "boolean".data = none ↔ ∃ b, v = .bool b) ∧
    (validateParameterType k v "integer".data = none ↔
      validateParameterType k v "number".data = none) ∧
    (∀ t, t ≠ "string".data → t ≠ "integer".data → t ≠ "number".data →
      t ≠ "boolean".data → validateParameterType k v t = none) ∧
    (∀ t e, validateParameterType k v t = some e → e = .typeMismatch k t) := by
  refine ⟨vpt_string_iff k v, vpt_integer_iff k v, vpt_number_iff k v,
    vpt_boolean_iff k v, ?_, ?_, ?_⟩
  · rw [vpt_integer_iff, vpt_number_iff]
  · intro t h1 h2 h3 h4
    unfold validateParameterType
    rw [if_neg h1, if_neg h2, if_neg h3, if_neg h4]
  · exact fun t e h => validateParameterType_some k v t e h

/-- C7 (witness): a JSON number satisfies both `integer` and `number`;
an unrecognized declared kind checks nothing. -/
theorem c7_primitive_kind_checks_witness :
    validateParameterType ['p'] (.num 3) "integer".data = none ∧
    validateParameterType ['p'] (.num 3) "number".data = none ∧
    validateParameterType ['p'] (.bool true) "object".data = none :=
  ⟨(c7_primitive_kind_checks ['p'] (.num 3)).2.1.mpr ⟨3, rfl⟩,
   (c7_primitive_kind_checks ['p'] (.num 3)).2.2.1.mpr ⟨3, rfl⟩,
   (c7_primitive_kind_checks ['p'] (.bool true)).2.2.2.2.2.1 "object".data
     (by decide) (by decide) (by decide) (by decide)⟩

/-- C1: whenever `json.Unmarshal` fails on the trimmed reply,
`ProcessInput` returns — with a nil error — the fixed fallback
decision: should-call false, confidence 0.1, the rephrase message, and
the "Failed to parse agent decision" explanation. -/
theorem c1_fallback_on_unparsable_reply (content : List Char)
    (h : unmarshalResponse (trimSpaceGo content) = none) :
    processInputParse content = fallbackResponse ∧
    fallbackResponse.shouldCall = false ∧
    fallbackResponse.confidence = 1 / 10 ∧
    fallbackResponse.explanation = "Failed to parse agent decision".data := by
  refine ⟨?_, rfl, rfl, rfl⟩
  simp [processInputParse, h]

/-- C1 (witness): a truncated reply fails to unmarshal and produces
exactly the fallback decision. -/
theorem c1_fallback_on_unparsable_reply_witness :
    unmarshalResponse (trimSpaceGo "\x7b\"should_call\": tru".data) = none ∧
    processInputParse "\x7b\"should_call\": tru".data = fallbackResponse :=
  have h : unmarshalResponse (trimSpaceGo "\x7b\"should_call\": tru".data) = none :=
    Option.isNone_iff_eq_none.mp (by decide)
  ⟨h, (c1_fallback_on_unparsable_reply _ h).1⟩

/-- C1 (counterexample): a reply that is valid JSON but lacks the
required decision fields unmarshals without error, so `ProcessInput`
returns it with Go zero values (confidence 0) instead of the fallback
(confidence 0.1) — "missing required fields" does not trigger the
fallback. -/
theorem c1_counterexample :
    (processInputParse "\x7b\"message\": \"hi\"\x7d".data).confidence = 0 ∧
    fallbackResponse.confidence = 1 / 10 ∧
    processInputParse "\x7b\"message\": \"hi\"\x7d".data ≠ fallbackResponse := by
  refine ⟨rfl, rfl, fun h => ?_⟩
  have h0 : (0 : ℚ) = 1 / 10 := congrArg Response.confidence h
  norm_num at h0

/-! ### Helper lemmas for the fence-stripping analysis -/

theorem isPre_self_append (p t : List Char) : isPre p (p ++ t) = true := by
  induction p with
  | nil => rfl
  | cons a p ih => simp [isPre, ih]

theorem goTrimHead_self_append (p t : List Char) : goTrimHead p (p ++ t) = t := by
  simp [goTrimHead, isPre_self_append, List.drop_left]

theorem isSuf_self_append (p t : List Char) : isSuf p (t ++ p) = true := by
  simp [isSuf, List.reverse_append, isPre_self_append]

theorem goTrimTail_self_append (p t : List Char) : goTrimTail p (t ++ p) = t := by
  simp only [goTrimTail, isSuf_self_append, if_true, List.length_append,
    Nat.add_sub_cancel, List.take_left]

theorem dropWhile_cons_false {p : Char → Bool} {a : Char} {t : List Char}
    (h : p a = false) : (a :: t).dropWhile p = a :: t := by
  simp [List.dropWhile_cons, h]

theorem trimSpaceGo_cons_ws (c : Char) (s : List Char) (h : isSpaceCh c = true) :
    trimSpaceGo (c :: s) = trimSpaceGo s := by
  simp [trimSpaceGo, List.dropWhile_cons, h]

theorem trimSpaceGo_append_ws (s : List Char) (c : Char) (h : isSpaceCh c = true) :
    trimSpaceGo (s ++ [c]) = trimSpaceGo s := by
  induction s with
  | nil =>
    simp [trimSpaceGo, List.dropWhile_cons, h]
  | cons a s ih =>
    by_cases ha : isSpaceCh a = true
    · rw [List.cons_append, trimSpaceGo_cons_ws a _ ha, trimSpaceGo_cons_ws a _ ha]
      exact ih
    · have ha' : isSpaceCh a = false := by
        cases hb : isSpaceCh a
        · rfl
        · exact absurd hb ha
      unfold trimSpaceGo
      rw [List.cons_append, dropWhile_cons_false ha', dropWhile_cons_false ha']
      congr 1
      rw [List.reverse_cons, List.reverse_cons, List.reverse_append]
      simp [List.dropWhile_cons, List.dropWhile_append, h]

theorem trimSpaceGo_eq_self (s : List Char)
    (h1 : s.dropWhile isSpaceCh = s) (h2 : s.reverse.dropWhile isSpaceCh = s.reverse) :
    trimSpaceGo s = s := by
  unfold trimSpaceGo
  rw [h1, h2, List.reverse_reverse]

/-- A reply whose first non-stripped character is a backtick can never
start a JSON value. -/
theorem parseValue_backtick (k : Nat) (t : List Char) :
    parseValue k ('`' :: t) = none := by
  cases k <;> rfl

/-- Consequently any reply starting with a backtick fails to
unmarshal. -/
theorem unmarshalResponse_backtick (t : List Char) :
    unmarshalResponse ('`' :: t) = none := by
  have hval := parseValue_backtick (2 * ('`' :: t).length + 8) t
  simp only [unmarshalResponse, unmarshalJSON, hval]

/-- C5 (counterexample): a well-formed JSON decision wrapped in a
single fence pair does not parse in `ProcessInput` — no fence is
stripped there, so the reply degrades to the fallback — even though
the unfenced payload by itself unmarshals into the decision. -/
theorem c5_counterexample :
    processInputParse
      ("```json\n\x7b\"message\":\"ok\",\"should_call\":true,\"explanation\":\"e\"\x7d\n```").data =
      fallbackResponse ∧
    ((unmarshalResponse
      "\x7b\"message\":\"ok\",\"should_call\":true,\"explanation\":\"e\"\x7d".data).map
        Response.shouldCall) = some true :=
  ⟨rfl, rfl⟩

/-- C5 (amended): `ProcessInput` strips no fences — every fenced reply
fails JSON parsing and yields the fallback decision; the fence
stripping lives in the `analyzeQuery` path of `src/unnamed/part_001`,
where exactly one leading ```json fence and one trailing ``` fence are
removed, recovering the inner payload exactly (for any payload with no
surrounding whitespace). -/
theorem c5_fences_stripped_only_in_analyze (s : List Char)
    (h1 : s.dropWhile isSpaceCh = s)
    (h2 : s.reverse.dropWhile isSpaceCh = s.reverse) :
    analyzeClean (['`', '`', '`', 'j', 's', 'o', 'n', '\n'] ++ s ++
      ['\n', '`', '`', '`']) = s ∧
    processInputParse (['`', '`', '`', 'j', 's', 'o', 'n', '\n'] ++ s ++
      ['\n', '`', '`', '`']) = fallbackResponse := by
  have htrim : trimSpaceGo (['`', '`', '`', 'j', 's', 'o', 'n', '\n'] ++ s ++
      ['\n', '`', '`', '`']) =
      ['`', '`', '`', 'j', 's', 'o', 'n', '\n'] ++ s ++ ['\n', '`', '`', '`'] := by
    apply trimSpaceGo_eq_self
    · exact dropWhile_cons_false rfl
    · rw [show (['`', '`', '`', 'j', 's', 'o', 'n', '\n'] ++ s ++
          ['\n', '`', '`', '`']).reverse =
          '`' :: '`' :: '`' :: '\n' ::
            (s.reverse ++ ['\n', 'n', 'o', 's', 'j', '`', '`', '`']) by simp]
      exact dropWhile_cons_false rfl
  have e1 : goTrimHead ['`', '`', '`', 'j', 's', 'o', 'n']
      (['`', '`', '`', 'j', 's', 'o', 'n', '\n'] ++ s ++ ['\n', '`', '`', '`']) =
      '\n' :: (s ++ ['\n', '`', '`', '`']) :=
    goTrimHead_self_append ['`', '`', '`', 'j', 's', 'o', 'n']
      ('\n' :: (s ++ ['\n', '`', '`', '`']))
  have e2 : goTrimHead ['`', '`', '`'] ('\n' :: (s ++ ['\n', '`', '`', '`'])) =
      '\n' :: (s ++ ['\n', '`', '`', '`']) := by
    unfold goTrimHead
    rw [if_neg]
    intro hc
    exact Bool.noConfusion hc
  have e3 : goTrimTail ['`', '`', '`'] ('\n' :: (s ++ ['\n', '`', '`', '`'])) =
      '\n' :: (s ++ ['\n']) := by
    rw [show (s ++ ['\n', '`', '`', '`']) = (s ++ ['\n']) ++ ['`', '`', '`'] from
      (List.append_assoc s ['\n'] ['`', '`', '`']).symm]
    exact goTrimTail_self_append ['`', '`', '`'] ('\n' :: (s ++ ['\n']))
  have e4 : trimSpaceGo ('\n' :: (s ++ ['\n'])) = s := by
    rw [trimSpaceGo_cons_ws '\n' _ rfl, trimSpaceGo_append_ws _ '\n' rfl,
      trimSpaceGo_eq_self s h1 h2]
  constructor
  · show cleanFences (trimSpaceGo _) = s
    rw [htrim]
    simp only [cleanFences]
    rw [e1, e2, e3, e4]
  · have hnone : unmarshalResponse (['`', '`', '`', 'j', 's', 'o', 'n', '\n'] ++ s ++
        ['\n', '`', '`', '`']) = none :=
      show unmarshalResponse
          (['`', '`', '`', 'j', 's', 'o', 'n', '\n'] ++ s ++ ['\n', '`', '`', '`']) = none
        from unmarshalResponse_backtick
          (['`', '`', 'j', 's', 'o', 'n', '\n'] ++ s ++ ['\n', '`', '`', '`'])
    simp only [processInputParse]
    rw [htrim, hnone]

/-- C5 (witness): the amended behavior at the concrete payload "[]". -/
theorem c5_fences_stripped_only_in_analyze_witness :
    analyzeClean (['`', '`', '`', 'j', 's', 'o', 'n', '\n'] ++ "[]".data ++
      ['\n', '`', '`', '`']) = "[]".data ∧
    processInputParse (['`', '`', '`', 'j', 's', 'o', 'n', '\n'] ++ "[]".data ++
      ['\n', '`', '`', '`']) = fallbackResponse :=
  c5_fences_stripped_only_in_analyze "[]".data (by decide) (by decide)

end Skull
